import Mathlib

set_option autoImplicit false

/-!
Verification development for the sql_exporter repository.

The Go sources are shallowly embedded: Go strings are Lean `String`s
(compared and sliced through their character lists, which is faithful for
the ASCII data handled here), Go maps are association lists in insertion
order, `float64` metric values are embedded as `Rat` (no arithmetic is
performed on them), durations are integer nanosecond counts (`Int`), and a
Go function that can panic is modelled with an explicit panic flag or an
`Option` result (`none` = panic).  Fallible Go functions returning
`(T, error)` are modelled with the `Res` type below.
-/

namespace SqlExporter

/-- Result of a Go call returning `(T, error)`: either a value or an error
message. -/
inductive Res (α : Type) where
  | ok (a : α)
  | error (e : String)
deriving DecidableEq, Repr

/-- True when a `Res` carries a value. -/
def Res.isOk {α : Type} : Res α → Bool
  | .ok _ => true
  | .error _ => false

/-!  Text utilities.  Go compares strings byte-lexicographically; for the
ASCII label names occurring here this agrees with the character-wise
comparison below. -/

/-- Lexicographic less-or-equal on character lists (Go `string` `<=`). -/
def lexLe : List Char → List Char → Bool
  | [], _ => true
  | _ :: _, [] => false
  | x :: xs, y :: ys =>
    if x.toNat < y.toNat then true
    else if y.toNat < x.toNat then false
    else lexLe xs ys

/-- Go string comparison `a <= b`. -/
def strLe (a b : String) : Bool := lexLe a.data b.data

/-- Go `strings.Join(parts, sep)`. -/
def joinSep (sep : String) : List String → String
  | [] => ""
  | [x] => x
  | x :: xs => x ++ sep ++ joinSep sep xs

/-- Go `s[:n]` (byte slicing, modelled character-wise). -/
def takeBytes (s : String) (n : Nat) : String := String.mk (s.data.take n)

/-- Go `len(s)` (byte length, modelled character-wise). -/
def strLen (s : String) : Nat := s.data.length

/-- Transitivity of `lexLe` (proved as a definition so that the order
instances below, which precede all theorems, can use it). -/
def lexLeTransPf : ∀ a b c : List Char,
    lexLe a b = true → lexLe b c = true → lexLe a c = true := by
  intro a
  induction a with
  | nil => intro b c _ _; rfl
  | cons x xs ih =>
    intro b c hab hbc
    cases b with
    | nil => simp [lexLe] at hab
    | cons y ys =>
      cases c with
      | nil => simp [lexLe] at hbc
      | cons z zs =>
        simp only [lexLe] at hab hbc ⊢
        split_ifs at hab hbc ⊢ <;> try omega
        all_goals first
          | rfl
          | exact ih ys zs hab hbc

/-- Totality of `lexLe`. -/
def lexLeTotalPf : ∀ a b : List Char, lexLe a b = true ∨ lexLe b a = true := by
  intro a
  induction a with
  | nil => intro b; left; rfl
  | cons x xs ih =>
    intro b
    cases b with
    | nil => right; rfl
    | cons y ys =>
      simp only [lexLe]
      split_ifs <;> try omega
      · left; rfl
      · right; rfl
      · exact ih ys

/-!  Label pairs (`dto.LabelPair`) and the `metric.go` metric family model
(package `sql_exporter`, file `src/metric.go`). -/

/-- A `dto.LabelPair`: a label name together with its value. -/
structure LabelPair where
  name : String
  val : String
deriving DecidableEq, Repr

/-- The fields of `config.GlobalConfig` consulted by `metric.go`
(`MaxLabelNameLen`, `MaxLabelValueLen`; `MaxJsonLabels` only bounds the
JSON label parser, which is abstracted below). -/
structure GlobalCfg where
  maxLabelNameLen : Nat
  maxLabelValueLen : Nat
deriving DecidableEq, Repr

/-- The fields of `config.MetricConfig` consulted by `metric.go`. -/
structure MetricCfg where
  name : String
  keyLabels : List String
  valueLabel : String
  values : List String
  jsonLabels : String
deriving DecidableEq, Repr

/-- Model of `MetricFamily` of `src/metric.go` lines 33-39 (the log context carries
no behaviour relevant to the claims and is kept as a plain string). -/
structure MetricFamily where
  config : MetricCfg
  constLabels : List LabelPair
  labels : List String
  globalConfig : Option GlobalCfg
deriving DecidableEq, Repr

/-- Model of `NewMetricFamily`, `src/metric.go` lines 42-65. -/
def newMetricFamily (mc : MetricCfg) (constLabels : List LabelPair)
    (gc : Option GlobalCfg) : Res MetricFamily :=
  if mc.values.length = 0 then .error "no value column defined"
  else if mc.values.length > 1 ∧ mc.valueLabel = "" then
    .error "multiple values but no value label"
  else
    .ok
      { config := mc
        constLabels := constLabels
        labels := mc.keyLabels ++ (if mc.valueLabel ≠ "" then [mc.valueLabel] else [])
        globalConfig := gc }

/-- Model of `makeLabelPair`, `src/metric.go` lines 269-284: truncates the name and
the value to the configured maxima when a global config is present. -/
def makeLabelPair (gc : Option GlobalCfg) (label val : String) : LabelPair :=
  match gc with
  | none => { name := label, val := val }
  | some g =>
    { name := if strLen label > g.maxLabelNameLen then takeBytes label g.maxLabelNameLen else label
      val := if strLen val > g.maxLabelValueLen then takeBytes val g.maxLabelValueLen else val }

/-- Ordering used by `labelPairSorter` (`src/metric.go` lines 312-324):
compare label pairs by name. -/
def pairLe (p q : LabelPair) : Prop := strLe p.name q.name = true

instance : DecidableRel pairLe :=
  fun p q => instDecidableEqBool (strLe p.name q.name) true

instance : IsTrans LabelPair pairLe :=
  ⟨fun _ _ _ h₁ h₂ => lexLeTransPf _ _ _ h₁ h₂⟩

instance : IsTotal LabelPair pairLe :=
  ⟨fun p q => lexLeTotalPf p.name.data q.name.data⟩

/-- Model of `sort.Sort(labelPairSorter(labelPairs))`: Go's comparison sort is
modelled by insertion sort over `pairLe`; the source's sort is unstable, so
only the resulting order of names (identical for every comparison sort) is
meaningful. -/
def sortPairs (l : List LabelPair) : List LabelPair := List.insertionSort pairLe l

/-- Model of `makeLabelPairs`, `src/metric.go` lines 286-307.  The only caller
(`NewMetric`) guarantees `labelValues` has the length of `desc.labels`, so
the Go indexing `labelValues[i]` is rendered with `zipWith`. -/
def makeLabelPairs (desc : MetricFamily) (labelValues : List String)
    (userLabels : List LabelPair) : List LabelPair :=
  if desc.labels.length + desc.constLabels.length + userLabels.length = 0 then []
  else if desc.labels.length = 0 ∧ userLabels.length = 0 then desc.constLabels
  else
    sortPairs
      (List.zipWith (makeLabelPair desc.globalConfig) desc.labels labelValues
        ++ userLabels ++ desc.constLabels)

/-!  Rows scanned from a query result (`map[string]interface{}` holding
`string` values for key columns and `float64` values for value columns). -/

/-- A dynamic row value: text (key column) or numeric (value column). -/
inductive RowValue where
  | str (s : String)
  | num (x : Rat)
deriving DecidableEq, Repr

/-- A scanned row: map from column name to value (association list). -/
abbrev Row : Type := List (String × RowValue)

/-- Go map read `row[c]` (`none` when the column is absent, which Go
reports as a `nil` interface value). -/
def rowGet (row : Row) (c : String) : Option RowValue := List.lookup c row

/-- Go map write `row[c] = v` (replacing any previous binding). -/
def rowInsert (row : Row) (c : String) (v : RowValue) : Row :=
  match row with
  | [] => [(c, v)]
  | (c', v') :: rest => if c' = c then (c, v) :: rest else (c', v') :: rowInsert rest c v

/-- Go type assertion `x.(string)` on a row read; `none` models the panic
raised when the column is absent or holds a non-string. -/
def assertStr : Option RowValue → Option String
  | some (.str s) => some s
  | _ => none

/-- Go type assertion `x.(float64)` on a row read; `none` models the panic
raised when the column is absent or holds a non-float. -/
def assertNum : Option RowValue → Option Rat
  | some (.num x) => some x
  | _ => none

/-- Model of `constMetric` of `src/metric.go` lines 211-215: one emitted sample with
its fixed value and final (sorted) label pairs. -/
structure ConstMetric where
  value : Rat
  labelPairs : List LabelPair
deriving DecidableEq, Repr

/-- A metric sent to the collection channel: either a samples-carrying
`constMetric` or an `invalidMetric` wrapping an error string. -/
inductive EmittedMetric where
  | const (m : ConstMetric)
  | invalid (e : String)
deriving DecidableEq, Repr

/-- Model of `NewMetric`, `src/metric.go` lines 199-208: panics (`none`) when the
number of label values does not match the descriptor's label count. -/
def newMetric (desc : MetricFamily) (value : Rat) (labelValues : List String)
    (userLabels : List LabelPair) : Option ConstMetric :=
  if desc.labels.length ≠ labelValues.length then none
  else some { value := value, labelPairs := makeLabelPairs desc labelValues userLabels }

/-- What a call to `MetricFamily.Collect` did: the metrics that reached the
channel, and whether the call panicked (instead of returning). -/
structure CollectResult where
  emitted : List EmittedMetric
  panicked : Bool
deriving DecidableEq, Repr

/-- The value loop of `MetricFamily.Collect`, `src/metric.go` lines 80-86:
iterates value columns, mutating the last slot of `labelValues` when a
value label is declared (Go `labelValues[len(labelValues)-1] = v`, which
panics on an empty slice), then asserting the value and building the
metric. -/
def collectValues (mf : MetricFamily) (row : Row) (userLabels : List LabelPair) :
    List String → List String → CollectResult
  | [], _ => { emitted := [], panicked := false }
  | v :: vs, lvs =>
    if mf.config.valueLabel ≠ "" ∧ lvs = [] then { emitted := [], panicked := true }
    else
      let lvs' := if mf.config.valueLabel ≠ "" then lvs.dropLast ++ [v] else lvs
      match assertNum (rowGet row v) with
      | none => { emitted := [], panicked := true }
      | some x =>
        match newMetric mf x lvs' userLabels with
        | none => { emitted := [], panicked := true }
        | some m =>
          let rest := collectValues mf row userLabels vs lvs'
          { emitted := .const m :: rest.emitted, panicked := rest.panicked }

/-- Model of `MetricFamily.Collect`, `src/metric.go` lines 68-87.  `parseJson`
abstracts `parseJsonLabels` (stdlib JSON decoding plus truncation); the
claims hold for every such function.  A failed type assertion anywhere
panics, aborting the call with nothing further emitted. -/
def collect (parseJson : String → List LabelPair) (mf : MetricFamily) (row : Row) :
    CollectResult :=
  let userLabels? : Option (List LabelPair) :=
    if mf.config.jsonLabels ≠ "" then
      match assertStr (rowGet row mf.config.jsonLabels) with
      | none => none
      | some s => some (if s ≠ "" then parseJson s else [])
    else some []
  match userLabels? with
  | none => { emitted := [], panicked := true }
  | some userLabels =>
    match (mf.config.keyLabels.mapM fun k => assertStr (rowGet row k)) with
    | none => { emitted := [], panicked := true }
    | some labelValues => collectValues mf row userLabels mf.config.values labelValues

/-!  Query model (`src/unnamed/part_024`): the column-type map built by
`NewQuery`/`setColumnType` and the row scanner `ScanRow`. -/

/-- Semantic column type expected by the metrics: key (string) or value
(float64). -/
inductive ColumnType where
  | key
  | value
deriving DecidableEq, Repr

/-- Model of `columnTypeMap`: map from column name to its column type, as an
association list in insertion order. -/
abbrev ColumnTypeMap : Type := List (String × ColumnType)

/-- Error produced by `setColumnType` for a column used both ways
(`fmt.Errorf("column %q used both as key and value", columnName)`). -/
def errBothKeyValue (c : String) : String :=
  "column \"" ++ c ++ "\" used both as key and value"

/-- Model of `setColumnType`, `src/unnamed/part_024` lines 57-67. -/
def setColumnType (columnName : String) (ctype : ColumnType) (m : ColumnTypeMap) :
    Res ColumnTypeMap :=
  match List.lookup columnName m with
  | some previousType =>
    if previousType ≠ ctype then .error (errBothKeyValue columnName) else .ok m
  | none => .ok (m ++ [(columnName, ctype)])

/-- Folds `setColumnType` over a list of (column, type) requests. -/
def setAll : List (String × ColumnType) → ColumnTypeMap → Res ColumnTypeMap
  | [], m => .ok m
  | (c, t) :: ps, m =>
    match setColumnType c t m with
    | .error e => .error e
    | .ok m' => setAll ps m'

/-- The (column, type) requests made by `NewQuery` (`src/unnamed/part_024`
lines 32-54): for each family, first its key-label columns, then its value
columns. -/
def pairsOf (fams : List MetricCfg) : List (String × ColumnType) :=
  fams.flatMap fun f =>
    f.keyLabels.map (fun c => (c, ColumnType.key))
      ++ f.values.map (fun c => (c, ColumnType.value))

/-- The column-type map computed by `NewQuery` for the given metric family
configurations (`src/unnamed/part_024` lines 32-54). -/
def newQueryCT (fams : List MetricCfg) : Res ColumnTypeMap :=
  setAll (pairsOf fams) []

/-- All columns used as key labels by some family. -/
def keyCols (fams : List MetricCfg) : List String := fams.flatMap (·.keyLabels)

/-- All columns used as value columns by some family. -/
def valCols (fams : List MetricCfg) : List String := fams.flatMap (·.values)

/-- The set `have` of `ScanRow` (`src/unnamed/part_024` lines 96-110): the
distinct result columns that appear in the column-type map. -/
def haveCols (cT : ColumnTypeMap) (columns : List String) : List String :=
  (columns.filter fun c => (List.lookup c cT).isSome).dedup

/-- The `missing` slice of `ScanRow` lines 111-117 as the source builds it:
`make([]string, len(columnTypes)-len(have))` pre-fills the slice with
`len(columnTypes)-len(have)` empty strings, and the loop then appends every
column of the type map (present or not, unfiltered). -/
def missingSlice (cT : ColumnTypeMap) (haveLen : Nat) : List String :=
  List.replicate (cT.length - haveLen) "" ++ cT.map Prod.fst

/-- The error returned by `ScanRow` when columns are missing
(`fmt.Errorf("column(s) [%s] missing from query %q result", ...)`). -/
def scanMissingErr (qname : String) (missing : List String) : String :=
  "column(s) [" ++ joinSep "], [" missing ++ "] missing from query \""
    ++ qname ++ "\" result"

/-- The scan-and-pick step of `ScanRow` lines 120-135: each result column
must scan into its expected semantic type (text for key, double for value,
anything for an unreferenced column), and referenced columns are collected
into the record. -/
def scanVals (cT : ColumnTypeMap) : List String → List RowValue → Row → Option Row
  | [], [], acc => some acc
  | c :: cs, v :: vs, acc =>
    match List.lookup c cT with
    | some .key =>
      match v with
      | .str _ => scanVals cT cs vs (rowInsert acc c v)
      | .num _ => none
    | some .value =>
      match v with
      | .num _ => scanVals cT cs vs (rowInsert acc c v)
      | .str _ => none
    | none => scanVals cT cs vs acc
  | _, _, _ => none

/-- Model of `Query.ScanRow`, `src/unnamed/part_024` lines 89-137, for a result set
whose metadata lists `columns` and whose current row holds `vals`. -/
def scanRow (qname : String) (cT : ColumnTypeMap) (columns : List String)
    (vals : List RowValue) : Res Row :=
  if (haveCols cT columns).length ≠ cT.length then
    .error (scanMissingErr qname (missingSlice cT (haveCols cT columns).length))
  else
    match scanVals cT columns vals [] with
    | none => .error "scan error"
    | some row => .ok row

/-!  The per-row portion of `collector.Collect` (`src/unnamed/part_026`
lines 76-85): a failed `ScanRow` emits exactly one invalid metric and the
loop continues with the next row; a successful record is fanned out to
every metric family of the query. -/

/-- Fans a record out to each metric family in turn; a panic in one
`Collect` call aborts the remaining families (the Go panic unwinds). -/
def collectFams (parseJson : String → List LabelPair) (row : Row) :
    List MetricFamily → CollectResult
  | [] => { emitted := [], panicked := false }
  | mf :: rest =>
    let r := collect parseJson mf row
    if r.panicked then { emitted := r.emitted, panicked := true }
    else
      let r' := collectFams parseJson row rest
      { emitted := r.emitted ++ r'.emitted, panicked := r'.panicked }

/-- One iteration of the row loop of `collector.Collect`
(`src/unnamed/part_026` lines 76-85). -/
def processRow (collName qname : String) (cT : ColumnTypeMap)
    (fams : List MetricFamily) (parseJson : String → List LabelPair)
    (columns : List String) (vals : List RowValue) : CollectResult :=
  match scanRow qname cT columns vals with
  | .error e =>
    { emitted := [.invalid ("error scanning row in collector \"" ++ collName ++ "\": " ++ e)]
      panicked := false }
  | .ok row => collectFams parseJson row fams

/-- The whole row loop of `collector.Collect`: rows are processed in
order; a panic aborts the loop (and the scrape). -/
def collectRows (collName qname : String) (cT : ColumnTypeMap)
    (fams : List MetricFamily) (parseJson : String → List LabelPair)
    (columns : List String) : List (List RowValue) → CollectResult
  | [] => { emitted := [], panicked := false }
  | vals :: rest =>
    let r := processRow collName qname cT fams parseJson columns vals
    if r.panicked then { emitted := r.emitted, panicked := true }
    else
      let r' := collectRows collName qname cT fams parseJson columns rest
      { emitted := r.emitted ++ r'.emitted, panicked := r'.panicked }

/-!  Driver adapter (`src/sql.go`, package `database_exporter`,
`OpenConnection` lines 74-126). -/

/-- Errors `OpenConnection` can return before any driver is invoked. -/
inductive OpenErr where
  | missingDriver
  | unknownDriver (driver : String)
deriving DecidableEq, Repr

/-- The driver names registered by the blank imports of `src/sql.go` lines
11-16 (go-mssqldb registers both `mssql` and `sqlserver`). -/
def registeredDrivers : List String :=
  ["mssql", "sqlserver", "mysql", "clickhouse", "postgres", "oci8", "sqlite3"]

/-- Go `strings.Index(l, sep)`: first index at which `sep` occurs. -/
def subIndex (sep : List Char) : List Char → Option Nat
  | [] => if sep = [] then some 0 else none
  | c :: rest =>
    if sep.isPrefixOf (c :: rest) then some 0
    else (subIndex sep rest).map (· + 1)

/-- Go `strings.TrimPrefix(s, p)`. -/
def trimPfx (p s : String) : String :=
  if p.data.isPrefixOf s.data then String.mk (s.data.drop p.data.length) else s

/-- The scheme of a DSN: the part before the first `://`, when present. -/
def schemeOf (dsn : String) : Option String :=
  (subIndex "://".data dsn.data).map fun i => String.mk (dsn.data.take i)

/-- The driver-name adjustment of the `switch` in `OpenConnection` lines
83-95: `oracle` is rewritten to the `oci8` driver; every other case keeps
the scheme as the driver name. -/
def adjustDriver (s : String) : String := if s = "oracle" then "oci8" else s

/-- The DSN adjustment of the same `switch`: known schemes are stripped
(and `clickhouse` is replaced by `tcp`); anything else passes through. -/
def adjustDsn (driver dsn : String) : String :=
  if driver = "mysql" then trimPfx "mysql://" dsn
  else if driver = "clickhouse" then "tcp://" ++ trimPfx "clickhouse://" dsn
  else if driver = "oci8" then trimPfx "oci8://" dsn
  else if driver = "oracle" then trimPfx "oracle://" dsn
  else if driver = "sqlite3" then trimPfx "sqlite3://" dsn
  else dsn

/-- A scheme is known when its (adjusted) driver name is registered. -/
def knownScheme (s : String) : Bool := registeredDrivers.contains (adjustDriver s)

/-- Model of `OpenConnection`, `src/sql.go` lines 74-126, up to and including the
`sql.Open` driver-registry lookup.  A successful result carries the
`(driver, dsn)` pair handed to the driver; both error results are produced
before any driver code runs (and hence before any network I/O: `sql.Open`
itself performs none). -/
def openConnection (dsn : String) : Sum OpenErr (String × String) :=
  match subIndex "://".data dsn.data with
  | none => .inl .missingDriver
  | some idx =>
    if registeredDrivers.contains (adjustDriver (String.mk (dsn.data.take idx))) then
      .inr (adjustDriver (String.mk (dsn.data.take idx)),
            adjustDsn (String.mk (dsn.data.take idx)) dsn)
    else .inl (.unknownDriver (adjustDriver (String.mk (dsn.data.take idx))))

/-!  Scrape deadline derivation (`src/cmd/sql_exporter/promhttp.go`,
`contextFor` lines 74-105).  Durations are integer nanosecond counts; the
caller's `X-Prometheus-Scrape-Timeout-Seconds` header, already parsed, is
`some t` (absent or unparseable: `none`).  The result is the deadline of
the returned context (`none`: `context.Background()`, no deadline). -/

/-- Model of `contextFor`, `src/cmd/sql_exporter/promhttp.go` lines 74-105. -/
def contextFor (headerTimeout : Option Int) (timeoutOffset configTimeout : Int) :
    Option Int :=
  let timeout : Int :=
    match headerTimeout with
    | none => 0
    | some t => if timeoutOffset > t then t else t - timeoutOffset
  let timeout :=
    if configTimeout > 0 ∧ (timeout ≤ 0 ∨ configTimeout < timeout) then configTimeout
    else timeout
  if timeout ≤ 0 then none else some timeout

/-!  Configuration model and load-time validation (`src/target.go`,
second document, lines 29-430).  YAML serialization is modelled as a
field-faithful mapping between the structures below and the file format;
the one piece of custom marshalling logic in the source is
`StaticConfig.MarshalYAML` (`redactStaticConfig` below), and loading runs
the validation performed by the `UnmarshalYAML` methods. -/

/-- Model of `QueryConfig` of `src/target.go` lines 381-389 (exported fields). -/
structure TQueryConfig where
  name : String
  query : String
deriving DecidableEq, Repr

/-- Model of `MetricConfig` of `src/target.go` lines 305-320 (exported fields). -/
structure TMetricConfig where
  name : String
  typeString : String
  help : String
  keyLabels : List String
  valueLabel : String
  values : List String
  query : String
  queryRef : String
deriving DecidableEq, Repr

/-- Model of `CollectorConfig` of `src/target.go` lines 254-262 (exported fields;
`min_interval` as integer nanoseconds, negative meaning "not set"). -/
structure TCollectorConfig where
  name : String
  minInterval : Int
  metrics : List TMetricConfig
  queries : List TQueryConfig
deriving DecidableEq, Repr

/-- Model of `StaticConfig` of `src/target.go` lines 200-206: maps (as association
lists in iteration order) from target name to data source name and from
label name to label value. -/
structure TStaticConfig where
  targets : List (String × String)
  labels : List (String × String)
deriving DecidableEq, Repr

/-- Model of `JobConfig` of `src/target.go` lines 135-144 (exported fields). -/
structure TJobConfig where
  name : String
  collectors : List String
  staticConfigs : List TStaticConfig
deriving DecidableEq, Repr

/-- Model of `GlobalConfig` of `src/target.go` lines 111-116. -/
structure TGlobalConfig where
  minInterval : Int
deriving DecidableEq, Repr

/-- Model of `Config` of `src/target.go` lines 59-66 (exported fields). -/
structure TConfig where
  globals : TGlobalConfig
  jobs : List TJobConfig
  collectors : List TCollectorConfig
deriving DecidableEq, Repr

/-- Model of `checkLabel`, `src/target.go` lines 411-419: rejects empty and
reserved (`job`/`instance`) label names.  NOTE: every call site in the
source discards this function's result. -/
def checkLabel (label : String) (ctx : List String) : Option String :=
  if label = "" then some ("empty label defined in " ++ joinSep " " ctx)
  else if label = "job" ∨ label = "instance" then
    some ("reserved label \"" ++ label ++ "\" redefined in " ++ joinSep " " ctx)
  else none

/-- ASCII lower-casing of one character (Go `strings.ToLower` on the ASCII
metric type strings). -/
def asciiLower (c : Char) : Char :=
  if 65 ≤ c.toNat ∧ c.toNat ≤ 90 then Char.ofNat (c.toNat + 32) else c

/-- Go `strings.ToLower` (ASCII). -/
def lowerStr (s : String) : String := String.mk (s.data.map asciiLower)

/-- The key-label loop of `MetricConfig.UnmarshalYAML`, `src/target.go`
lines 353-363.  As in the source, `checkLabel`'s result is computed and
discarded (`let _ := ...`); only duplicate checks can fail. -/
def keyLabelLoop (m : TMetricConfig) : List String → Option String
  | [] => none
  | li :: rest =>
    let _ := checkLabel li ["metric", m.name]
    if rest.contains li then
      some ("duplicate key label \"" ++ li ++ "\" for metric \"" ++ m.name ++ "\"")
    else if m.valueLabel = li then
      some ("duplicate label \"" ++ li
        ++ "\" (defined in both key_labels and value_label) for metric \"" ++ m.name ++ "\"")
    else keyLabelLoop m rest

/-- Model of `MetricConfig.UnmarshalYAML`, `src/target.go` lines 323-378 (the
validation it performs after decoding; first failure wins). -/
def validateMetricConfig (m : TMetricConfig) : Option String :=
  if m.name = "" then some "missing name for metric"
  else if m.typeString = "" then some ("missing type for metric \"" ++ m.name ++ "\"")
  else if m.help = "" then some ("missing help for metric \"" ++ m.name ++ "\"")
  else if (m.query = "") = (m.queryRef = "") then
    some ("exactly one of query and query_ref should be specified for metric \"" ++ m.name ++ "\"")
  else if lowerStr m.typeString ≠ "counter" ∧ lowerStr m.typeString ≠ "gauge" then
    some ("unsupported metric type: " ++ m.typeString)
  else
    match keyLabelLoop m m.keyLabels with
    | some e => some e
    | none =>
      if m.values.length = 0 then
        some ("no values defined for metric \"" ++ m.name ++ "\"")
      else if m.values.length > 1 then
        if m.valueLabel = "" then
          some ("value_label must be defined for metric with multiple values \"" ++ m.name ++ "\"")
        else
          let _ := checkLabel m.valueLabel ["value_label for metric", m.name]
          none
      else none

/-- Model of `QueryConfig.UnmarshalYAML`, `src/target.go` lines 392-409. -/
def validateQueryConfig (q : TQueryConfig) : Option String :=
  if q.name = "" then some "missing name for query"
  else if q.query = "" then some ("missing query literal for query \"" ++ q.name ++ "\"")
  else none

/-- The target loop of `StaticConfig.UnmarshalYAML`, `src/target.go` lines
215-233: empty/duplicate target names and data source names are rejected
(note: no label check of any kind is performed on static-config labels). -/
def staticTargetLoop (seenT seenD : List String) : List (String × String) → Option String
  | [] => none
  | (tname, dsn) :: rest =>
    if tname = "" then some "empty target name in static config"
    else if seenT.contains tname then
      some ("duplicate target name \"" ++ tname ++ "\" in static_config")
    else if dsn = "" then some "empty data source name in static config"
    else if seenD.contains dsn then
      some ("duplicate data source name \"" ++ tname ++ "\" in static_config")
    else staticTargetLoop (tname :: seenT) (dsn :: seenD) rest

/-- Model of `StaticConfig.UnmarshalYAML`, `src/target.go` lines 209-236. -/
def validateStaticConfig (s : TStaticConfig) : Option String :=
  staticTargetLoop [] [] s.targets

/-- Pairwise duplicate check on a job's collector references
(`src/target.go` lines 162-168). -/
def dupCollectorRef (jname : String) : List String → Option String
  | [] => none
  | ci :: rest =>
    if rest.contains ci then
      some ("duplicate collector reference \"" ++ ci ++ "\" by job \"" ++ jname ++ "\"")
    else dupCollectorRef jname rest

/-- Model of `JobConfig.UnmarshalYAML`, `src/target.go` lines 147-175, together
with the validation of the job's static configs (decoded children). -/
def validateJobConfig (j : TJobConfig) : Option String :=
  match j.staticConfigs.findSome? validateStaticConfig with
  | some e => some e
  | none =>
    if j.name = "" then some "missing name for job"
    else if j.collectors.length = 0 then
      some ("no collectors defined for job \"" ++ j.name ++ "\"")
    else
      match dupCollectorRef j.name j.collectors with
      | some e => some e
      | none =>
        if j.staticConfigs.length = 0 then
          some ("no targets defined for job \"" ++ j.name ++ "\"")
        else none

/-- Model of `CollectorConfig.UnmarshalYAML`, `src/target.go` lines 265-301,
together with the validation of its decoded children: metrics must be
non-empty and every `query_ref` must resolve to a named query of the
collector. -/
def validateCollectorConfig (c : TCollectorConfig) : Option String :=
  match c.metrics.findSome? validateMetricConfig with
  | some e => some e
  | none =>
    match c.queries.findSome? validateQueryConfig with
    | some e => some e
    | none =>
      if c.metrics.length = 0 then
        some ("no metrics defined for collector \"" ++ c.name ++ "\"")
      else
        c.metrics.findSome? fun metric =>
          if metric.queryRef ≠ "" ∧ ¬ (c.queries.map (·.name)).contains metric.queryRef then
            some ("unresolved query_ref \"" ++ metric.queryRef ++ "\" in metric \""
              ++ metric.name ++ "\" of collector \"" ++ c.name ++ "\"")
          else none

/-- The collector loop of `Config.UnmarshalYAML`, `src/target.go` lines
80-90: defaults a negative `min_interval` to the global one and rejects
duplicate collector names; returns the adjusted collectors. -/
def collectorFold (global : Int) : List TCollectorConfig → List String →
    Res (List TCollectorConfig)
  | [], _ => .ok []
  | coll :: rest, seen =>
    let coll' := if coll.minInterval < 0 then { coll with minInterval := global } else coll
    if seen.contains coll'.name then .error ("duplicate collector name: " ++ coll'.name)
    else
      match collectorFold global rest (coll'.name :: seen) with
      | .error e => .error e
      | .ok r => .ok (coll' :: r)

/-- The collector-reference resolution of `Config.UnmarshalYAML`,
`src/target.go` lines 91-100. -/
def jobRefCheck (names : List String) (jobs : List TJobConfig) : Option String :=
  jobs.findSome? fun j =>
    j.collectors.findSome? fun cname =>
      if names.contains cname then none
      else some ("unknown collector \"" ++ cname ++ "\" referenced by job \"" ++ j.name ++ "\"")

/-- The `Config`-level part of `Config.UnmarshalYAML`, `src/target.go`
lines 69-103. -/
def configLevel (c : TConfig) : Res TConfig :=
  if c.jobs.length = 0 then .error "no jobs defined"
  else
    match collectorFold c.globals.minInterval c.collectors [] with
    | .error e => .error e
    | .ok colls =>
      match jobRefCheck (colls.map (·.name)) c.jobs with
      | some e => .error e
      | none => .ok { c with collectors := colls }

/-- All validation performed while decoding the children of a `Config`
(the nested `UnmarshalYAML` methods run before the top-level one). -/
def validateChildren (c : TConfig) : Option String :=
  match c.collectors.findSome? validateCollectorConfig with
  | some e => some e
  | none => c.jobs.findSome? validateJobConfig

/-- Model of `LoadConfig` (`src/target.go` lines 41-52) applied to a decoded
configuration value: runs every `UnmarshalYAML` validation and the
top-level adjustments. -/
def loadConfig (c : TConfig) : Res TConfig :=
  match validateChildren c with
  | some e => .error e
  | none => configLevel c

/-- Model of `StaticConfig.MarshalYAML`, `src/target.go` lines 238-247: the
rendered static config maps every target name to the literal `<secret>`
and keeps the labels. -/
def redactStaticConfig (s : TStaticConfig) : TStaticConfig :=
  { targets := s.targets.map fun p => (p.1, "<secret>")
    labels := s.labels }

/-- Model of `Config.YAML` (`src/target.go` lines 105-108) at the structural level:
plain fields render as themselves and each static config renders through
`StaticConfig.MarshalYAML`. -/
def renderConfig (c : TConfig) : TConfig :=
  { c with jobs := c.jobs.map fun j =>
      { j with staticConfigs := j.staticConfigs.map redactStaticConfig } }

/-- Rendering a configuration to the file format and loading the result
(`load(render(c))`). -/
def loadRender (c : TConfig) : Res TConfig := loadConfig (renderConfig c)

/-!  Concrete fixtures used by the witnesses and counterexamples below. -/

/-- A JSON-label parser that returns no labels (the configurations below
declare no `jsonLabels` column, so the parser is never consulted). -/
def noJson : String → List LabelPair := fun _ => []

/-- Const labels attached by a target (`job`, `instance`). -/
def constJob : List LabelPair :=
  [{ name := "job", val := "j" }, { name := "instance", val := "i" }]

/-- Metric of the spec's end-to-end scenario 2: two value columns under a
`kind` value label. -/
def mcMem : MetricCfg :=
  { name := "mem_bytes", keyLabels := ["region"], valueLabel := "kind"
    values := ["used", "free"], jsonLabels := "" }

/-- The family `NewMetricFamily` builds for `mcMem`. -/
def mfMem : MetricFamily :=
  { config := mcMem, constLabels := constJob, labels := ["region", "kind"]
    globalConfig := none }

/-- The scenario-2 record: `region=us, used=10, free=90`. -/
def rowMem : Row := [("region", .str "us"), ("used", .num 10), ("free", .num 90)]

/-- A single-value metric with one key-label column `k`. -/
def mcSimple : MetricCfg :=
  { name := "m", keyLabels := ["k"], valueLabel := "", values := ["v"], jsonLabels := "" }

/-- The family `NewMetricFamily` builds for `mcSimple`. -/
def mfSimple : MetricFamily :=
  { config := mcSimple, constLabels := constJob, labels := ["k"], globalConfig := none }

/-- A record missing the required key-label column `k`. -/
def rowMissingKey : Row := [("v", .num 1)]

/-- A metric whose key label is the reserved name `job`. -/
def mcJobLabel : MetricCfg :=
  { name := "m", keyLabels := ["job"], valueLabel := "", values := ["v"], jsonLabels := "" }

/-- The family built for `mcJobLabel` under a target whose const labels
already contain `job`. -/
def mfJobLabel : MetricFamily :=
  { config := mcJobLabel, constLabels := [{ name := "job", val := "j" }]
    labels := ["job"], globalConfig := none }

/-- A record for `mfJobLabel`. -/
def rowJobLabel : Row := [("job", .str "x"), ("v", .num 1)]

/-- A column-type map requesting a key column `a` and a value column `b`. -/
def ctAB : ColumnTypeMap := [("a", .key), ("b", .value)]

/-- A family using column `x` as a key label. -/
def mcKeyX : MetricCfg :=
  { name := "m1", keyLabels := ["x"], valueLabel := "", values := ["v1"], jsonLabels := "" }

/-- A family using column `x` as a value column. -/
def mcValX : MetricCfg :=
  { name := "m2", keyLabels := [], valueLabel := "", values := ["x"], jsonLabels := "" }

/-- Two families that disagree on column `x`. -/
def famsConflict : List MetricCfg := [mcKeyX, mcValX]

/-- A small valid configuration with one job, one single-target static
config and one collector. -/
def cfgEx : TConfig :=
  { globals := { minInterval := 0 }
    jobs := [{ name := "j", collectors := ["c"]
               staticConfigs := [{ targets := [("t1", "mysql://u:p@h/db")]
                                   labels := [("dc", "east")] }] }]
    collectors := [{ name := "c", minInterval := 5
                     metrics := [{ name := "m", typeString := "gauge", help := "h"
                                   keyLabels := ["k"], valueLabel := "", values := ["v"]
                                   query := "SELECT 1", queryRef := "" }]
                     queries := [] }] }

/-- Fixture: `cfgEx` with the metric's key label renamed to the reserved `job`. -/
def cfgJob : TConfig :=
  { globals := { minInterval := 0 }
    jobs := [{ name := "j", collectors := ["c"]
               staticConfigs := [{ targets := [("t1", "mysql://u:p@h/db")]
                                   labels := [("dc", "east")] }] }]
    collectors := [{ name := "c", minInterval := 5
                     metrics := [{ name := "m", typeString := "gauge", help := "h"
                                   keyLabels := ["job"], valueLabel := "", values := ["v"]
                                   query := "SELECT 1", queryRef := "" }]
                     queries := [] }] }

/-- Two static configs that differ only in their data source names. -/
def scA : TStaticConfig := { targets := [("t", "dsn1")], labels := [] }

/-- See `scA`. -/
def scB : TStaticConfig := { targets := [("t", "dsn2")], labels := [] }

/-- A family descriptor used to witness the amended C9 statement. -/
def descW : MetricFamily :=
  { config := mcSimple, constLabels := [{ name := "b", val := "1" }]
    labels := ["a"], globalConfig := none }

/-!  Theorems. -/

/-- C1: for a metric family with a declared value label (spec scenario 2:
`key_labels=[region]`, `value_label=kind`, `values=[used,free]`) and a
record containing all required columns, `MetricFamily.Collect` does not
emit one sample per value column with the value-column name in the
value-label slot; it emits nothing and panics, because the `labelValues`
slice is allocated with length `len(key_labels)` (`make([]string, 0, ...)`
plus appends) while `NewMetric` requires `len(key_labels)+1` values. -/
theorem c1_value_label_collect_panics :
    newMetricFamily mcMem constJob none = .ok mfMem
    ∧ collect noJson mfMem rowMem = { emitted := [], panicked := true } := by
  decide

/-- C3: handed a record that is missing the required key-label column `k`,
`MetricFamily.Collect` does not emit a single invalid metric and return
normally; the type assertion `row[label].(string)` panics and nothing at
all is emitted. -/
theorem c3_collect_missing_column_counterexample :
    collect noJson mfSimple rowMissingKey = { emitted := [], panicked := true } := by
  decide

/-- C5: for the type map `{a: KEY, b: VALUE}` and a result set containing
only column `a`, `ScanRow` fails as claimed, but the error does not list
exactly the missing columns: the `missing` slice is `["", "a", "b"]` — it
contains the present column `a` and a padding empty string, because the
source allocates `make([]string, n-h)` (length, not capacity) and then
appends every type-map column without filtering by `have`. -/
theorem c5_missing_columns_error_eval :
    scanRow "q" ctAB ["a"] [.str "x"] = .error (scanMissingErr "q" ["", "a", "b"])
    ∧ missingSlice ctAB 1 = ["", "a", "b"]
    ∧ "a" ∈ (["", "a", "b"] : List String)
    ∧ ("a" ∈ (["a"] : List String) ∧ "b" ∉ (["a"] : List String)) := by
  decide

/-- C7: a configuration whose metric declares the reserved key label `job`
is accepted by the loader (`loadConfig cfgJob` succeeds), even though the
source's own `checkLabel` flags exactly this label — its result is
discarded at every call site (`src/target.go` lines 354, 374). -/
theorem c7_reserved_label_accepted_eval :
    loadConfig cfgJob = .ok cfgJob
    ∧ checkLabel "job" ["metric", "m"] =
        some "reserved label \"job\" redefined in metric m" := by
  decide

/-- C8: the round-trip law fails: `cfgEx` is a valid configuration
(loading it is the identity), yet loading its rendering does not return
`cfgEx`, because `StaticConfig.MarshalYAML` replaces the data source name
with `<secret>`. -/
theorem c8_round_trip_counterexample :
    loadConfig cfgEx = .ok cfgEx ∧ loadRender cfgEx ≠ .ok cfgEx := by
  decide

/-- C2: with a caller deadline of 1 and an offset of 1 (offset equal to
the deadline, hence `offset >= deadline`), the scrape does not run under
the caller deadline: `contextFor` returns a context with no deadline at
all (the code only ignores the offset when it is strictly greater, and
here the adjusted timeout 0 plus an unset default yields no deadline). -/
theorem c2_offset_equal_counterexample :
    contextFor (some 1) 1 0 = none ∧ contextFor (some 1) 1 0 ≠ some 1 := by
  decide

/-- C9: a sample actually emitted by `MetricFamily.Collect` (family with
key label `job` and const label `job`, accepted by the loader per C7)
carries two label pairs with the same name `job`: the label list is not
duplicate-free. -/
theorem c9_duplicate_label_counterexample :
    collect noJson mfJobLabel rowJobLabel =
      CollectResult.mk
        [EmittedMetric.const (ConstMetric.mk 1 [LabelPair.mk "job" "x", LabelPair.mk "job" "j"])]
        false
    ∧ ¬ (([LabelPair.mk "job" "x", LabelPair.mk "job" "j"] :
        List LabelPair).map LabelPair.name).Nodup := by
  decide

/-- C2 (amended): for a caller deadline `t > 0`, the offset `o` is ignored
only when strictly greater than `t` (the scrape then runs under
`min(t, default)` when a positive default is configured, else under `t`);
when `o < t` the scrape runs under `min(t - o, default)` likewise; and in
the boundary case `o = t` the adjusted timeout is zero, so the configured
default applies when positive and otherwise the context has no deadline at
all (this last case is the only way a caller-supplied deadline yields an
unbounded context). -/
theorem c2_contextFor_amended (t o cfg : Int) (ht : 0 < t) :
    (t < o → contextFor (some t) o cfg = some (if 0 < cfg ∧ cfg < t then cfg else t))
    ∧ (o < t → contextFor (some t) o cfg = some (if 0 < cfg ∧ cfg < t - o then cfg else t - o))
    ∧ (o = t → contextFor (some t) o cfg = if 0 < cfg then some cfg else none) := by
  refine ⟨fun h => ?_, fun h => ?_, fun h => ?_⟩ <;>
    simp only [contextFor] <;> split_ifs <;> first | rfl | (exfalso; omega)

/-- Witness for `c2_contextFor_amended` at `t = 5`, `o = 7`, `cfg = 3`. -/
theorem c2_contextFor_amended_witness :
    contextFor (some 5) 7 3 = some 3 := by
  have h := (c2_contextFor_amended 5 7 3 (by decide)).1 (by decide)
  simpa using h

/-- C4: a data source name without the `://` separator is rejected with
the missing-driver error, and one whose scheme is not a known driver
scheme is rejected with the unknown-driver error; both errors are produced
by `OpenConnection` before any driver code (and hence any network I/O) is
reached — the `.inr` result of the model is what would be handed to a
driver, and neither error path constructs it. -/
theorem c4_unknown_driver_rejected (dsn : String) :
    (schemeOf dsn = none → openConnection dsn = .inl .missingDriver)
    ∧ (∀ s, schemeOf dsn = some s → knownScheme s = false →
        openConnection dsn = .inl (.unknownDriver s)) := by
  constructor
  · intro h
    unfold schemeOf at h
    unfold openConnection
    cases hidx : subIndex "://".data dsn.data with
    | none => rfl
    | some i => rw [hidx] at h; simp at h
  · intro s hs hk
    unfold schemeOf at hs
    unfold openConnection
    cases hidx : subIndex "://".data dsn.data with
    | none => rw [hidx] at hs; simp at hs
    | some i =>
      rw [hidx] at hs
      have hs' : String.mk (dsn.data.take i) = s := by simpa using hs
      have hor : s ≠ "oracle" := by
        intro hcon
        rw [hcon] at hk
        simp [knownScheme, adjustDriver, registeredDrivers] at hk
      have hadj : adjustDriver s = s := by unfold adjustDriver; rw [if_neg hor]
      unfold knownScheme at hk
      simp only [hs', hadj, hk]
      rw [hadj] at hk
      simpa using hk

/-- Witness for `c4_unknown_driver_rejected`: the unknown scheme `foo` and
a DSN with no separator are both rejected. -/
theorem c4_unknown_driver_rejected_witness :
    openConnection "foo://x" = .inl (.unknownDriver "foo")
    ∧ openConnection "nodsn" = .inl .missingDriver :=
  ⟨(c4_unknown_driver_rejected "foo://x").2 "foo" (by decide) (by decide),
   (c4_unknown_driver_rejected "nodsn").1 (by decide)⟩

/-- C10: the rendering of a static config keeps the target-name list and
the labels, maps every target to the literal `<secret>` in place of its
data source name, and therefore two static configs that differ only in
their data source name values render identically. -/
theorem c10_redaction_masks_dsn (s s' : TStaticConfig) :
    (redactStaticConfig s).targets.map Prod.fst = s.targets.map Prod.fst
    ∧ (∀ p ∈ (redactStaticConfig s).targets, p.2 = "<secret>")
    ∧ (redactStaticConfig s).labels = s.labels
    ∧ (s.targets.map Prod.fst = s'.targets.map Prod.fst → s.labels = s'.labels →
        redactStaticConfig s = redactStaticConfig s') := by
  refine ⟨?_, ?_, rfl, ?_⟩
  · simp [redactStaticConfig]
  · intro p hp
    simp only [redactStaticConfig, List.mem_map] at hp
    obtain ⟨q, _, rfl⟩ := hp
    rfl
  · intro h1 h2
    have key : ∀ l : List (String × String),
        l.map (fun p => (p.1, "<secret>")) = (l.map Prod.fst).map (fun n => (n, "<secret>")) := by
      intro l; rw [List.map_map]; rfl
    unfold redactStaticConfig
    rw [key s.targets, key s'.targets, h1, h2]

/-- Witness for `c10_redaction_masks_dsn`: `scA` and `scB` differ only in
their DSN and render identically, with the target-name list kept. -/
theorem c10_redaction_masks_dsn_witness :
    redactStaticConfig scA = redactStaticConfig scB
    ∧ (redactStaticConfig scA).targets.map Prod.fst = scA.targets.map Prod.fst :=
  ⟨(c10_redaction_masks_dsn scA scB).2.2.2 rfl rfl, (c10_redaction_masks_dsn scA scB).1⟩

/-!  Association-list and `setColumnType` helper lemmas. -/

/-- A lookup succeeds exactly when the key occurs in the map. -/
theorem lookup_isSome_iff {β : Type} (c : String) (m : List (String × β)) :
    (List.lookup c m).isSome = true ↔ c ∈ m.map Prod.fst := by
  induction m with
  | nil => simp [List.lookup]
  | cons p rest ih =>
    obtain ⟨a, b⟩ := p
    by_cases h : c = a
    · subst h; simp [List.lookup]
    · have hb : (c == a) = false := by simpa using h
      simp [List.lookup, hb, ih, h]

/-- Appending to a map preserves existing bindings. -/
theorem lookup_append_left {β : Type} (c : String) (m l : List (String × β)) (t : β)
    (h : List.lookup c m = some t) : List.lookup c (m ++ l) = some t := by
  induction m with
  | nil => simp [List.lookup] at h
  | cons p rest ih =>
    obtain ⟨a, b⟩ := p
    by_cases hc : c = a
    · subst hc
      rw [List.cons_append]
      simpa [List.lookup] using h
    · have hb : (c == a) = false := by simpa using hc
      rw [List.cons_append]
      simp only [List.lookup, hb] at h ⊢
      exact ih h

/-- A binding found after appending a single entry was either already
present or is that entry (with the key previously absent). -/
theorem lookup_append_single {β : Type} (c : String) (m : List (String × β))
    (a : String) (b t : β) (h : List.lookup c (m ++ [(a, b)]) = some t) :
    List.lookup c m = some t ∨ (c = a ∧ t = b ∧ List.lookup c m = none) := by
  induction m with
  | nil =>
    rw [List.nil_append] at h
    by_cases hc : c = a
    · subst hc
      simp only [List.lookup, beq_self_eq_true] at h
      right
      exact ⟨rfl, by injection h with h'; exact h'.symm, rfl⟩
    · have hb : (c == a) = false := by simpa using hc
      simp [List.lookup, hb] at h
  | cons p rest ih =>
    obtain ⟨x, y⟩ := p
    by_cases hc : c = x
    · subst hc
      rw [List.cons_append] at h
      simp only [List.lookup, beq_self_eq_true] at h ⊢
      left
      exact h
    · have hb : (c == x) = false := by simpa using hc
      rw [List.cons_append] at h
      simp only [List.lookup, hb] at h ⊢
      exact ih h

/-- A key absent from a map looks up to `none` after appending it. -/
theorem lookup_append_new {β : Type} (c : String) (m : List (String × β)) (b : β)
    (h : List.lookup c m = none) : List.lookup c (m ++ [(c, b)]) = some b := by
  induction m with
  | nil => simp [List.lookup]
  | cons p rest ih =>
    obtain ⟨x, y⟩ := p
    by_cases hc : c = x
    · subst hc; simp [List.lookup] at h
    · have hb : (c == x) = false := by simpa using hc
      rw [List.cons_append]
      simp only [List.lookup, hb] at h ⊢
      exact ih h

/-- Inversion for a successful `setColumnType`: either the column was
already bound to the same type (map unchanged) or it was absent (entry
appended). -/
theorem setColumnType_ok (a : String) (b : ColumnType) (m m₁ : ColumnTypeMap)
    (h : setColumnType a b m = .ok m₁) :
    (m₁ = m ∧ List.lookup a m = some b)
    ∨ (m₁ = m ++ [(a, b)] ∧ List.lookup a m = none) := by
  unfold setColumnType at h
  split at h
  · rename_i prev hl
    split at h
    · exact absurd h (by simp)
    · rename_i hne
      injection h with h'
      push_neg at hne
      subst hne
      exact Or.inl ⟨h'.symm, hl⟩
  · rename_i hl
    injection h with h'
    exact Or.inr ⟨h'.symm, hl⟩

/-- Inversion for a failed `setColumnType`: the column was bound to the
other type and the error names it. -/
theorem setColumnType_error (a : String) (b : ColumnType) (m : ColumnTypeMap) (e : String)
    (h : setColumnType a b m = .error e) :
    e = errBothKeyValue a ∧ ∃ u, List.lookup a m = some u ∧ u ≠ b := by
  unfold setColumnType at h
  split at h
  · rename_i prev hl
    split at h
    · rename_i hne
      injection h with h'
      exact ⟨h'.symm, prev, hl, hne⟩
    · exact absurd h (by simp)
  · exact absurd h (by simp)

/-- Model of `setAll` preserves existing bindings. -/
theorem setAll_preserves (ps : List (String × ColumnType)) :
    ∀ (m m' : ColumnTypeMap), setAll ps m = .ok m' →
      ∀ c t, List.lookup c m = some t → List.lookup c m' = some t := by
  induction ps with
  | nil => intro m m' h c t hc; injection h with h'; rw [← h']; exact hc
  | cons p rest ih =>
    intro m m' h c t hc
    obtain ⟨a, b⟩ := p
    simp only [setAll] at h
    split at h
    · exact absurd h (by simp)
    · rename_i m₁ hsc
      rcases setColumnType_ok a b m m₁ hsc with ⟨he, _⟩ | ⟨he, _⟩
      · rw [he] at h; exact ih m m' h c t hc
      · rw [he] at h; exact ih _ m' h c t (lookup_append_left c m [(a, b)] t hc)

/-- Every request processed by a successful `setAll` ends up bound. -/
theorem setAll_binds (ps : List (String × ColumnType)) :
    ∀ (m m' : ColumnTypeMap), setAll ps m = .ok m' →
      ∀ p ∈ ps, ∃ t, List.lookup p.1 m' = some t := by
  induction ps with
  | nil => intro m m' _ p hp; simp at hp
  | cons q rest ih =>
    intro m m' h p hp
    obtain ⟨a, b⟩ := q
    simp only [setAll] at h
    split at h
    · exact absurd h (by simp)
    · rename_i m₁ hsc
      rcases List.mem_cons.mp hp with hph | hpr
      · subst hph
        rcases setColumnType_ok a b m m₁ hsc with ⟨he, hl⟩ | ⟨he, hl⟩
        · rw [he] at h; exact ⟨b, setAll_preserves rest m m' h a b hl⟩
        · rw [he] at h
          exact ⟨b, setAll_preserves rest _ m' h a b (lookup_append_new a m b hl)⟩
      · exact ih m₁ m' h p hpr

/-- Model of `setAll` keeps the key list duplicate-free. -/
theorem setAll_nodup (ps : List (String × ColumnType)) :
    ∀ (m m' : ColumnTypeMap), (m.map Prod.fst).Nodup → setAll ps m = .ok m' →
      (m'.map Prod.fst).Nodup := by
  induction ps with
  | nil => intro m m' hm h; injection h with h'; rw [← h']; exact hm
  | cons q rest ih =>
    intro m m' hm h
    obtain ⟨a, b⟩ := q
    simp only [setAll] at h
    split at h
    · exact absurd h (by simp)
    · rename_i m₁ hsc
      rcases setColumnType_ok a b m m₁ hsc with ⟨he, _⟩ | ⟨he, hl⟩
      · rw [he] at h; exact ih m m' hm h
      · rw [he] at h
        refine ih _ m' ?_ h
        have ha : ¬ a ∈ m.map Prod.fst := by
          rw [← lookup_isSome_iff]
          simp [hl]
        simp [List.nodup_append, hm, ha]

/-- Success of `setAll` is equivalent to agreement of the requests with
the map and among themselves. -/
theorem setAll_ok_iff (ps : List (String × ColumnType)) :
    ∀ m : ColumnTypeMap,
      (setAll ps m).isOk = true ↔
        ((∀ p ∈ ps, ∀ t, List.lookup p.1 m = some t → p.2 = t) ∧
         (∀ p ∈ ps, ∀ q ∈ ps, p.1 = q.1 → p.2 = q.2)) := by
  induction ps with
  | nil => intro m; simp [setAll, Res.isOk]
  | cons p rest ih =>
    intro m
    obtain ⟨a, b⟩ := p
    constructor
    · intro h
      simp only [setAll] at h
      split at h
      · simp [Res.isOk] at h
      · rename_i m₁ hsc
        have hrest := (ih m₁).mp h
        rcases setColumnType_ok a b m m₁ hsc with ⟨he, hl⟩ | ⟨he, hl⟩
        · rw [he] at hrest
          refine ⟨?_, ?_⟩
          · intro q hq t ht
            rcases List.mem_cons.mp hq with h1 | hqr
            · subst h1
              simp only at ht
              rw [hl] at ht
              injection ht with ht' 
            · exact hrest.1 q hqr t ht
          · intro q hq r hr hqr1
            rcases List.mem_cons.mp hq with h1 | hq'
            · rcases List.mem_cons.mp hr with h2 | hr'
              · subst h1; subst h2; rfl
              · subst h1
                simp only at hqr1 ⊢
                have hx : List.lookup r.1 m = some b := by rw [← hqr1]; exact hl
                exact (hrest.1 r hr' b hx).symm
            · rcases List.mem_cons.mp hr with h2 | hr'
              · subst h2
                simp only at hqr1 ⊢
                have hx : List.lookup q.1 m = some b := by rw [hqr1]; exact hl
                exact hrest.1 q hq' b hx
              · exact hrest.2 q hq' r hr' hqr1
        · rw [he] at hrest
          refine ⟨?_, ?_⟩
          · intro q hq t ht
            rcases List.mem_cons.mp hq with h1 | hqr
            · subst h1
              simp only at ht
              rw [hl] at ht
              exact absurd ht (by simp)
            · exact hrest.1 q hqr t (lookup_append_left q.1 m [(a, b)] t ht)
          · intro q hq r hr hqr1
            rcases List.mem_cons.mp hq with h1 | hq'
            · rcases List.mem_cons.mp hr with h2 | hr'
              · subst h1; subst h2; rfl
              · subst h1
                simp only at hqr1 ⊢
                have hx : List.lookup r.1 (m ++ [(a, b)]) = some b := by
                  rw [← hqr1]; exact lookup_append_new a m b hl
                exact (hrest.1 r hr' b hx).symm
            · rcases List.mem_cons.mp hr with h2 | hr'
              · subst h2
                simp only at hqr1 ⊢
                have hx : List.lookup q.1 (m ++ [(a, b)]) = some b := by
                  rw [hqr1]; exact lookup_append_new a m b hl
                exact hrest.1 q hq' b hx
              · exact hrest.2 q hq' r hr' hqr1
    · intro hyp
      simp only [setAll]
      have hstep : ∃ m₁, setColumnType a b m = .ok m₁ ∧
          (m₁ = m ∨ m₁ = m ++ [(a, b)]) := by
        unfold setColumnType
        cases hl : List.lookup a m with
        | some u =>
          have hub : u = b := (hyp.1 (a, b) (List.mem_cons_self _ _) u hl).symm
          subst hub
          exact ⟨m, by simp, Or.inl rfl⟩
        | none => exact ⟨m ++ [(a, b)], by simp, Or.inr rfl⟩
      obtain ⟨m₁, hsc, hm₁⟩ := hstep
      rw [hsc]
      apply (ih m₁).mpr
      constructor
      · intro q hq t ht
        rcases hm₁ with rfl | rfl
        · exact hyp.1 q (List.mem_cons_of_mem _ hq) t ht
        · rcases lookup_append_single q.1 m a b t ht with hm | ⟨hqa, htb, _⟩
          · exact hyp.1 q (List.mem_cons_of_mem _ hq) t hm
          · rw [htb]
            exact hyp.2 q (List.mem_cons_of_mem _ hq) (a, b) (List.mem_cons_self _ _) hqa
      · intro q hq r hr hqr
        exact hyp.2 q (List.mem_cons_of_mem _ hq) r (List.mem_cons_of_mem _ hr) hqr

/-- A failed `setAll` names a column requested with both types (relative
to a base list covering the map and the requests). -/
theorem setAll_error_names (ps : List (String × ColumnType)) :
    ∀ (m : ColumnTypeMap) (base : List (String × ColumnType)),
      (∀ c t, List.lookup c m = some t → (c, t) ∈ base) →
      (∀ p ∈ ps, p ∈ base) →
      ∀ e, setAll ps m = .error e →
        ∃ c, e = errBothKeyValue c ∧ (c, ColumnType.key) ∈ base
          ∧ (c, ColumnType.value) ∈ base := by
  induction ps with
  | nil => intro m base _ _ e h; simp [setAll] at h
  | cons p rest ih =>
    intro m base hm hp e h
    obtain ⟨a, b⟩ := p
    simp only [setAll] at h
    split at h
    · rename_i e' hsc
      injection h with h'
      subst h'
      obtain ⟨he, u, hl, hub⟩ := setColumnType_error a b m e' hsc
      refine ⟨a, he, ?_, ?_⟩
      · cases b with
        | key => exact hp (a, .key) (List.mem_cons_self _ _)
        | value =>
          cases u with
          | key => exact hm a .key hl
          | value => exact absurd rfl hub
      · cases b with
        | value => exact hp (a, .value) (List.mem_cons_self _ _)
        | key =>
          cases u with
          | value => exact hm a .value hl
          | key => exact absurd rfl hub
    · rename_i m₁ hsc
      rcases setColumnType_ok a b m m₁ hsc with ⟨he, _⟩ | ⟨he, hl⟩
      · rw [he] at h
        exact ih m base hm (fun q hq => hp q (List.mem_cons_of_mem _ hq)) e h
      · rw [he] at h
        refine ih _ base ?_ (fun q hq => hp q (List.mem_cons_of_mem _ hq)) e h
        intro c t ht
        rcases lookup_append_single c m a b t ht with hmm | ⟨rfl, rfl, _⟩
        · exact hm c t hmm
        · exact hp (c, t) (List.mem_cons_self _ _)

/-- Membership translation between the request list and the key columns. -/
theorem mem_pairsOf_key (fams : List MetricCfg) (c : String) :
    (c, ColumnType.key) ∈ pairsOf fams ↔ c ∈ keyCols fams := by
  simp [pairsOf, keyCols, List.mem_flatMap, List.mem_append, List.mem_map]

/-- Membership translation between the request list and the value columns. -/
theorem mem_pairsOf_value (fams : List MetricCfg) (c : String) :
    (c, ColumnType.value) ∈ pairsOf fams ↔ c ∈ valCols fams := by
  simp [pairsOf, valCols, List.mem_flatMap, List.mem_append, List.mem_map]

/-- C6: `NewQuery`'s column-type construction succeeds exactly when no
column is used as a key label by one family and as a value column by
another (or the same) family; on failure the error names a conflicting
column. -/
theorem c6_key_value_conflict (fams : List MetricCfg) :
    ((newQueryCT fams).isOk = true ↔ ∀ c, ¬(c ∈ keyCols fams ∧ c ∈ valCols fams))
    ∧ (∀ e, newQueryCT fams = .error e →
        ∃ c, e = errBothKeyValue c ∧ c ∈ keyCols fams ∧ c ∈ valCols fams) := by
  constructor
  · rw [newQueryCT, setAll_ok_iff]
    constructor
    · intro hyp c ⟨hk, hv⟩
      have h1 : (c, ColumnType.key) ∈ pairsOf fams := (mem_pairsOf_key fams c).mpr hk
      have h2 : (c, ColumnType.value) ∈ pairsOf fams := (mem_pairsOf_value fams c).mpr hv
      exact absurd (hyp.2 _ h1 _ h2 rfl) (by simp)
    · intro hyp
      constructor
      · intro q _ t ht; simp [List.lookup] at ht
      · intro q hq r hr hqr
        obtain ⟨c, b⟩ := q
        obtain ⟨c', b'⟩ := r
        simp only at hqr
        subst hqr
        cases b with
        | key => cases b' with
          | key => rfl
          | value =>
            exact absurd ⟨(mem_pairsOf_key fams c).mp hq, (mem_pairsOf_value fams c).mp hr⟩
              (hyp c)
        | value => cases b' with
          | value => rfl
          | key =>
            exact absurd ⟨(mem_pairsOf_key fams c).mp hr, (mem_pairsOf_value fams c).mp hq⟩
              (hyp c)
  · intro e he
    have h := setAll_error_names (pairsOf fams) [] (pairsOf fams)
      (by intro c t ht; simp [List.lookup] at ht) (fun q hq => hq) e he
    obtain ⟨c, hec, hk, hv⟩ := h
    exact ⟨c, hec, (mem_pairsOf_key fams c).mp hk, (mem_pairsOf_value fams c).mp hv⟩

/-- Witness for `c6_key_value_conflict`: the two families of
`famsConflict` share column `x` as key and value, and construction indeed
fails naming `x`. -/
theorem c6_key_value_conflict_witness :
    (newQueryCT famsConflict = .error (errBothKeyValue "x"))
    ∧ ∃ c, errBothKeyValue "x" = errBothKeyValue c
        ∧ c ∈ keyCols famsConflict ∧ c ∈ valCols famsConflict :=
  ⟨by decide, (c6_key_value_conflict famsConflict).2 (errBothKeyValue "x") (by decide)⟩

/-- If a column bound in the type map is absent from the result columns,
`ScanRow` fails (the `have` count is strictly short). -/
theorem scanRow_missing_errors (qname : String) (cT : ColumnTypeMap)
    (columns : List String) (vals : List RowValue) (c : String)
    (hbound : c ∈ cT.map Prod.fst) (hmiss : ¬ c ∈ columns) :
    scanRow qname cT columns vals =
      .error (scanMissingErr qname (missingSlice cT (haveCols cT columns).length)) := by
  have hsub : (c :: haveCols cT columns) ⊆ cT.map Prod.fst := by
    intro x hx
    rcases List.mem_cons.mp hx with rfl | hx'
    · exact hbound
    · have := List.mem_dedup.mp hx'
      have hf := List.of_mem_filter this
      exact (lookup_isSome_iff x cT).mp (by simpa using hf)
  have hcnot : ¬ c ∈ haveCols cT columns := by
    intro hc
    exact hmiss (List.mem_of_mem_filter (List.mem_dedup.mp hc))
  have hnd : (c :: haveCols cT columns).Nodup := by
    rw [List.nodup_cons]
    exact ⟨hcnot, by unfold haveCols; exact List.nodup_dedup _⟩
  have hle : (c :: haveCols cT columns).length ≤ (cT.map Prod.fst).length :=
    (hnd.subperm hsub).length_le
  have hlt : (haveCols cT columns).length < cT.length := by
    have hmap : (cT.map Prod.fst).length = cT.length := List.length_map cT Prod.fst
    simp only [List.length_cons] at hle
    omega
  unfold scanRow
  rw [if_pos (by omega)]

/-- C3 (amended): a record missing a required column never reaches
`MetricFamily.Collect`: `Query.ScanRow` rejects every row of such a result
set before any record is built, the collector's row loop emits exactly one
invalid metric per row and continues (no panic), and the scrape goes on.
(`Collect` itself, handed such a record directly, panics — see the
counterexample.) -/
theorem c3_missing_column_amended (collName qname : String)
    (famObjs : List MetricFamily) (cT : ColumnTypeMap)
    (parseJson : String → List LabelPair) (columns : List String)
    (rows : List (List RowValue)) (c : String)
    (hq : newQueryCT (famObjs.map (·.config)) = .ok cT)
    (hc : c ∈ keyCols (famObjs.map (·.config)) ∨ c ∈ valCols (famObjs.map (·.config)))
    (hmiss : ¬ c ∈ columns) :
    ∃ e, collectRows collName qname cT famObjs parseJson columns rows =
      { emitted := rows.map fun _ => .invalid e, panicked := false } := by
  have hbound : c ∈ cT.map Prod.fst := by
    have hpair : ∃ t, (c, t) ∈ pairsOf (famObjs.map (·.config)) := by
      rcases hc with hk | hv
      · exact ⟨.key, (mem_pairsOf_key _ c).mpr hk⟩
      · exact ⟨.value, (mem_pairsOf_value _ c).mpr hv⟩
    obtain ⟨t, hpt⟩ := hpair
    have hq' : setAll (pairsOf (famObjs.map (·.config))) [] = .ok cT := hq
    obtain ⟨u, hu⟩ := setAll_binds (pairsOf (famObjs.map (·.config))) [] cT hq' (c, t) hpt
    exact (lookup_isSome_iff c cT).mp (by simp [hu])
  have hscan := fun vals =>
    scanRow_missing_errors qname cT columns vals c hbound hmiss
  refine ⟨"error scanning row in collector \"" ++ collName ++ "\": "
      ++ scanMissingErr qname (missingSlice cT (haveCols cT columns).length), ?_⟩
  induction rows with
  | nil => rfl
  | cons vals rest ih =>
    simp [collectRows, processRow, hscan vals, ih]

/-- Witness for `c3_missing_column_amended`: the single-family query over
`mfSimple` (requiring columns `k` and `v`) applied to a result set with
only column `v` yields one invalid metric per row and no panic. -/
theorem c3_missing_column_amended_witness :
    ∃ e, collectRows "coll" "q" [("k", ColumnType.key), ("v", ColumnType.value)]
        [mfSimple] noJson ["v"] [[RowValue.num 1], [RowValue.num 2]] =
      { emitted := [[RowValue.num (1 : Rat)],
          [RowValue.num 2]].map fun _ => EmittedMetric.invalid e,
        panicked := false } :=
  c3_missing_column_amended "coll" "q" [mfSimple]
    [("k", ColumnType.key), ("v", ColumnType.value)] noJson
    ["v"] [[RowValue.num 1], [RowValue.num 2]] "k" (by decide) (by decide) (by decide)

/-- C9 (amended): every emitted label list is sorted by label name
provided the const labels are themselves sorted (the data model requires
this of the target's const labels; the fast path returns them verbatim),
and it is duplicate-free provided the combined name list — schema labels
after truncation, user labels, const labels — is duplicate-free.  The code
itself never deduplicates: a key label colliding with a const label name
(accepted at load time, see C7) yields a duplicate, as the counterexample
shows. -/
theorem c9_sorted_amended (desc : MetricFamily) (lvs : List String)
    (userLabels : List LabelPair)
    (hsorted : List.Sorted pairLe desc.constLabels)
    (hnodup : ((List.zipWith (makeLabelPair desc.globalConfig) desc.labels lvs
        ++ userLabels ++ desc.constLabels).map LabelPair.name).Nodup) :
    List.Sorted pairLe (makeLabelPairs desc lvs userLabels)
    ∧ ((makeLabelPairs desc lvs userLabels).map LabelPair.name).Nodup := by
  unfold makeLabelPairs
  split_ifs with h0 hfast
  · exact ⟨List.sorted_nil, List.nodup_nil⟩
  · refine ⟨hsorted, ?_⟩
    have hl : desc.labels = [] := List.length_eq_zero.mp (by omega)
    have hu : userLabels = [] := List.length_eq_zero.mp (by omega)
    rw [hl, hu] at hnodup
    simpa using hnodup
  · constructor
    · exact List.sorted_insertionSort pairLe _
    · have hperm := List.perm_insertionSort pairLe
        (List.zipWith (makeLabelPair desc.globalConfig) desc.labels lvs
          ++ userLabels ++ desc.constLabels)
      exact ((hperm.map LabelPair.name).nodup_iff).mpr hnodup

/-- Witness for `c9_sorted_amended` on a two-label family. -/
theorem c9_sorted_amended_witness :
    List.Sorted pairLe (makeLabelPairs descW ["x"] [])
    ∧ ((makeLabelPairs descW ["x"] []).map LabelPair.name).Nodup :=
  c9_sorted_amended descW ["x"] [] (by simp [descW]) (by decide)

/-- Redacting a static config with at most one target preserves a passing
validation (`<secret>` is non-empty, and with a single target no duplicate
data source name can arise). -/
theorem validateStaticConfig_redact (s : TStaticConfig)
    (h : validateStaticConfig s = none) (hlen : s.targets.length ≤ 1) :
    validateStaticConfig (redactStaticConfig s) = none := by
  obtain ⟨targets, labels⟩ := s
  cases targets with
  | nil => rfl
  | cons p rest =>
    cases rest with
    | cons q rest' => simp at hlen
    | nil =>
      obtain ⟨t, d⟩ := p
      simp only [validateStaticConfig, redactStaticConfig, staticTargetLoop,
        List.map_cons, List.map_nil] at h ⊢
      split_ifs at h ⊢ <;> simp_all

/-- Redacting a job's static configs preserves a passing validation when
every static config has at most one target. -/
theorem validateJobConfig_redact (j : TJobConfig)
    (h : validateJobConfig j = none)
    (hlen : ∀ s ∈ j.staticConfigs, s.targets.length ≤ 1) :
    validateJobConfig
      { j with staticConfigs := j.staticConfigs.map redactStaticConfig } = none := by
  unfold validateJobConfig at h ⊢
  cases hfs : j.staticConfigs.findSome? validateStaticConfig with
  | some e => rw [hfs] at h; exact absurd h (by simp)
  | none =>
    rw [hfs] at h
    have hall : ∀ s ∈ j.staticConfigs, validateStaticConfig s = none :=
      List.findSome?_eq_none_iff.mp hfs
    have hnew : ((j.staticConfigs.map redactStaticConfig).findSome?
        validateStaticConfig) = none := by
      apply List.findSome?_eq_none_iff.mpr
      intro s hs
      obtain ⟨s₀, hs₀, rfl⟩ := List.mem_map.mp hs
      exact validateStaticConfig_redact s₀ (hall s₀ hs₀) (hlen s₀ hs₀)
    simp only [hnew, List.length_map]
    exact h

/-- The jobs' collector-reference check ignores static configs, so
rendering does not affect it. -/
theorem jobRefCheck_render (names : List String) (jobs : List TJobConfig) :
    jobRefCheck names (jobs.map fun j =>
      { j with staticConfigs := j.staticConfigs.map redactStaticConfig }) =
    jobRefCheck names jobs := by
  unfold jobRefCheck
  rw [List.findSome?_map]
  rfl

/-- C8 (amended): for every valid configuration in which each static
config has at most one target, rendering and re-loading succeeds and
yields the configuration with every data source name replaced by
`<secret>` — every other field survives the round trip unchanged.  (The
claim as stated fails: data source names are deliberately redacted by
`StaticConfig.MarshalYAML`; moreover a static config with two or more
targets cannot be re-loaded at all, since both render to `<secret>` and
are rejected as duplicate data source names.) -/
theorem c8_round_trip_amended (c : TConfig)
    (hvalid : loadConfig c = .ok c)
    (hsmall : ∀ j ∈ c.jobs, ∀ s ∈ j.staticConfigs, s.targets.length ≤ 1) :
    loadRender c = .ok (renderConfig c) := by
  unfold loadConfig at hvalid
  split at hvalid
  · exact absurd hvalid (by simp)
  · rename_i hvc
    unfold loadRender loadConfig
    have hvc' : validateChildren (renderConfig c) = none := by
      unfold validateChildren at hvc ⊢
      cases hcc : c.collectors.findSome? validateCollectorConfig with
      | some e => rw [hcc] at hvc; exact absurd hvc (by simp)
      | none =>
        rw [hcc] at hvc
        have hco : (renderConfig c).collectors = c.collectors := rfl
        rw [hco, hcc]
        have hjobs : ∀ j ∈ c.jobs, validateJobConfig j = none :=
          List.findSome?_eq_none_iff.mp hvc
        apply List.findSome?_eq_none_iff.mpr
        intro j hj
        have hjm : (renderConfig c).jobs = c.jobs.map fun j =>
            { j with staticConfigs := j.staticConfigs.map redactStaticConfig } := rfl
        rw [hjm] at hj
        obtain ⟨j₀, hj₀, rfl⟩ := List.mem_map.mp hj
        exact validateJobConfig_redact j₀ (hjobs j₀ hj₀) (hsmall j₀ hj₀)
    rw [hvc']
    unfold configLevel at hvalid
    by_cases hj0 : c.jobs.length = 0
    · rw [if_pos hj0] at hvalid
      exact absurd hvalid (by simp)
    · rw [if_neg hj0] at hvalid
      split at hvalid
      · exact absurd hvalid (by simp)
      · rename_i colls heq
        split at hvalid
        · exact absurd hvalid (by simp)
        · rename_i heq2
          have hvalid' : TConfig.mk c.globals c.jobs colls = c := by
            simpa using hvalid
          have hcolls : colls = c.collectors := by
            have h' := congrArg TConfig.collectors hvalid'
            simpa using h'
          have hj0' : ¬ (renderConfig c).jobs.length = 0 := by
            simpa [renderConfig] using hj0
          have hjm : (renderConfig c).jobs = c.jobs.map fun j =>
              { j with staticConfigs := j.staticConfigs.map redactStaticConfig } := rfl
          unfold configLevel
          rw [if_neg hj0']
          have hgl : (renderConfig c).globals = c.globals := rfl
          have hco : (renderConfig c).collectors = c.collectors := rfl
          rw [hgl, hco]
          rw [hcolls] at heq2
          simp only [heq, hjm, jobRefCheck_render, hcolls, heq2]
          rfl

/-- Witness for `c8_round_trip_amended` at the valid single-target
configuration `cfgEx`. -/
theorem c8_round_trip_amended_witness :
    loadRender cfgEx = .ok (renderConfig cfgEx) :=
  c8_round_trip_amended cfgEx (by decide) (by decide)

end SqlExporter
